import Mathlib

/-!
Verification of the Poisson spike-source core
(src/neural_modelling/src/spike_source/poisson/spike_source_poisson.c)
against its natural-language specification.

Modelling conventions:
* `REAL` (signed accum) and `UFRACT` (unsigned long fract) are modelled as `ℚ`.
  Every concrete value appearing in the theorems below is exactly representable
  in the fixed-point formats, and every arithmetic operation performed on the
  evaluated paths is exact in those formats, so `ℚ` is a faithful model there.
* Machine integers (`uint32_t`) are modelled as `ℕ`; none of the verified paths
  can overflow 32 bits on the inputs considered.
* The hardware random stream (`mars_kiss64_seed` and the derived exponential and
  Poisson samplers, which live in library headers outside this repository) is
  abstracted as explicit draw arguments: an exponential variate `ℚ` per slow
  source and a Poisson count `ℕ` per fast source.  The library `EXP` function is
  likewise passed as an explicit function argument `expF`.  All theorems hold
  for arbitrary draws and arbitrary `expF`.
* Bit fields (`bit_field_t`) are modelled as `Finset ℕ`, the set of set bits.
-/

namespace SSP

/-- One per-source record, `spike_source_t` in the C source. -/
structure spike_source_t where
  start_ticks : ℕ
  end_ticks : ℕ
  is_fast_source : Bool
  exp_minus_lambda : ℚ
  mean_isi_ticks : ℚ
  time_to_spike_ticks : ℚ
deriving DecidableEq

/-- The parameter block, `struct parameters` in the C source (the seed is
abstracted into explicit draw arguments and therefore omitted). -/
structure parameters_t where
  has_key : Bool
  key : ℕ
  set_rate_neuron_id_mask : ℕ
  random_backoff_us : ℕ
  time_between_spikes : ℕ
  seconds_per_tick : ℚ
  ticks_per_second : ℚ
  slow_rate_per_tick_cutoff : ℚ
  first_source_id : ℕ
  n_spike_sources : ℕ
deriving DecidableEq

/-- Replace the element at index `i` of a list by `f` applied to it;
out-of-range indices leave the list unchanged.  Used to model an in-place
update of one entry of `spike_source_array`. -/
def modifyAt (f : α → α) : ℕ → List α → List α
  | _, [] => []
  | 0, x :: xs => f x :: xs
  | n + 1, x :: xs => x :: modifyAt f n xs

/-- `set_spike_source_rate` from the C source, embedded faithfully, including
the local declaration `REAL rate = 0.0;` that shadows the `rate` parameter
inside the in-range branch, and the comparison of that (shadowed) rate itself,
not the per-tick rate, against `slow_rate_per_tick_cutoff`.  `expF` stands for
the library `EXP` function. -/
def set_spike_source_rate (expF : ℚ → ℚ) (p : parameters_t)
    (arr : List spike_source_t) (id : ℕ) (rate : ℚ) : List spike_source_t :=
  if p.first_source_id ≤ id ∧ id - p.first_source_id < p.n_spike_sources then
    let sub_id := id - p.first_source_id
    -- the C body declares `REAL rate = 0.0;`, shadowing the parameter
    let rate : ℚ := 0
    let rate_per_tick := rate * p.seconds_per_tick
    if p.slow_rate_per_tick_cutoff < rate then
      modifyAt (fun src =>
        { src with is_fast_source := true,
                   exp_minus_lambda := expF (-rate_per_tick) }) sub_id arr
    else
      modifyAt (fun src =>
        { src with is_fast_source := false,
                   mean_isi_ticks := rate * p.ticks_per_second }) sub_id arr
  else arr

/-- `slow_spike_source_get_time_to_spike`: the exponential variate scaled by
the mean inter-spike interval.  `expVariate` is the draw returned by
`exponential_dist_variate`. -/
def slow_spike_source_get_time_to_spike (expVariate mean_isi : ℚ) : ℚ :=
  expVariate * mean_isi

/-- `fast_spike_source_get_num_spikes`: zero when `exp_minus_lambda` is the
zero bit pattern, otherwise the Poisson draw `pd` returned by
`poisson_dist_variate_exp_minus_lambda`. -/
def fast_spike_source_get_num_spikes (exp_minus_lambda : ℚ) (pd : ℕ) : ℕ :=
  if exp_minus_lambda = 0 then 0 else pd

/-- The slow-source branch of one `timer_callback` iteration for one source
(lines 517-548 of the C source): when the source is inside its window and has
a nonzero mean ISI, a single `if` handles at most one crossing
(mark and optional dispatch are decided by the returned count), then one tick
is subtracted unconditionally.  Returns the updated record and the number of
spikes generated. -/
def slow_source_tick (t : ℕ) (src : spike_source_t) (ev : ℚ) :
    spike_source_t × ℕ :=
  if src.start_ticks ≤ t ∧ t < src.end_ticks ∧ src.mean_isi_ticks ≠ 0 then
    let sn :=
      if src.time_to_spike_ticks ≤ 0 then
        ({ src with time_to_spike_ticks := src.time_to_spike_ticks +
              slow_spike_source_get_time_to_spike ev src.mean_isi_ticks }, 1)
      else (src, 0)
    ({ sn.1 with time_to_spike_ticks := sn.1.time_to_spike_ticks - 1 }, sn.2)
  else (src, 0)

/-- One `timer_callback` iteration for one source: the fast branch draws a
Poisson count inside the window, the slow branch is `slow_source_tick`.
Returns the updated record and the number of spikes generated. -/
def source_tick (t : ℕ) (src : spike_source_t) (pd : ℕ) (ev : ℚ) :
    spike_source_t × ℕ :=
  if src.is_fast_source then
    if src.start_ticks ≤ t ∧ t < src.end_ticks then
      (src, fast_spike_source_get_num_spikes src.exp_minus_lambda pd)
    else (src, 0)
  else slow_source_tick t src ev

/-- Modelled from the spec: the crossing loop the specification prescribes for
a slow source — "While `time_to_spike_ticks` is at most 0: mark once per
crossing, then add a fresh slow ISI draw".  The draw stream is the list `evs`
of exponential variates; the loop stops when the counter becomes positive or
the supplied draws run out. -/
def slow_crossing_loop : spike_source_t → List ℚ → ℕ → spike_source_t × ℕ
  | src, [], n => (src, n)
  | src, ev :: rest, n =>
    if src.time_to_spike_ticks ≤ 0 then
      slow_crossing_loop
        { src with time_to_spike_ticks := src.time_to_spike_ticks +
            slow_spike_source_get_time_to_spike ev src.mean_isi_ticks }
        rest (n + 1)
    else (src, n)

/-- Modelled from the spec: the whole slow-source tick as the specification
states it — run the crossing loop while the counter is nonpositive, then
subtract one tick. -/
def slow_source_tick_spec (t : ℕ) (src : spike_source_t) (evs : List ℚ) :
    spike_source_t × ℕ :=
  if src.start_ticks ≤ t ∧ t < src.end_ticks ∧ src.mean_isi_ticks ≠ 0 then
    let sn := slow_crossing_loop src evs 0
    ({ sn.1 with time_to_spike_ticks := sn.1.time_to_spike_ticks - 1 }, sn.2)
  else (src, 0)

/-- The recording buffer `timed_out_spikes`: a header (`time`, `n_buffers`)
followed by the allocated bit-field layers.  The C globals keep the buffer
behind a possibly-NULL pointer together with `n_spike_buffers_allocated`; here
the NULL state is the record with no layers, and the allocation count is
`layers.length` (the C code maintains `n_spike_buffers_allocated` equal to the
number of layers the live buffer holds, and a non-NULL pointer exactly when it
is positive). -/
structure timed_out_spikes where
  time : ℕ
  n_buffers : ℕ
  layers : List (Finset ℕ)
deriving DecidableEq

/-- Set bit `neuron_id` in layers `0` through `n_spikes - 1`: the loop
`for (n = n_spikes; n > 0; n--) bit_field_set(_out_spikes(n - 1), neuron_id)`
of `_mark_spike`. -/
def set_bit_layers (neuron_id : ℕ) : List (Finset ℕ) → ℕ → List (Finset ℕ)
  | [], _ => []
  | ls, 0 => ls
  | l :: ls, n + 1 => insert neuron_id l :: set_bit_layers neuron_id ls n

/-- `_mark_spike(neuron_id, n_spikes)` from the C source.  When recording is
enabled: grow the buffer to exactly `n_spikes` zero-filled layers if the
current allocation is smaller (the `spin1_memcpy` preserves the header and the
old layers), raise `n_buffers` to `n_spikes` if it was smaller, and set bit
`neuron_id` in the first `n_spikes` layers.  When recording is disabled the
whole body is skipped. -/
def mark_spike (recording_flags : ℕ) (sp : timed_out_spikes)
    (neuron_id n_spikes : ℕ) : timed_out_spikes :=
  if 0 < recording_flags then
    let sp :=
      if sp.layers.length < n_spikes then
        { sp with layers :=
            sp.layers ++ List.replicate (n_spikes - sp.layers.length) ∅ }
      else sp
    let sp := if sp.n_buffers < n_spikes then { sp with n_buffers := n_spikes }
      else sp
    { sp with layers := set_bit_layers neuron_id sp.layers n_spikes }
  else sp

/-- `_reset_spikes` from the C source: zero `n_buffers` and clear every
allocated layer (the loop runs over all `n_spike_buffers_allocated` buffers). -/
def reset_spikes (sp : timed_out_spikes) : timed_out_spikes :=
  { sp with n_buffers := 0,
            layers := List.replicate sp.layers.length ∅ }

/-- `_record_spikes(time)` from the C source: when the buffer exists and holds
at least one populated layer, stamp the time, submit the payload
(header plus the first `n_buffers` layers — the submitted byte count is
`8 + n_buffers * spike_buffer_size`), and reset the buffer.  Returns the new
buffer state and the submitted payload, if any. -/
def record_spikes (t : ℕ) (sp : timed_out_spikes) :
    timed_out_spikes × Option (ℕ × ℕ × List (Finset ℕ)) :=
  if 0 < sp.layers.length ∧ 0 < sp.n_buffers then
    let sp := { sp with time := t }
    (reset_spikes sp, some (t, sp.n_buffers, sp.layers.take sp.n_buffers))
  else (sp, none)

/-- Observable events of one timer callback, in program order. -/
inductive Ev where
  /-- a multicast spike packet handed to `_send_spike` with this key -/
  | sent (key : ℕ)
  /-- a payload handed to `recording_record_and_notify` -/
  | recorded (time n_buffers : ℕ) (layers : List (Finset ℕ))
  /-- the `recording_do_timestep_update` notification -/
  | timestep (t : ℕ)
  /-- `simulation_handle_pause_resume` entered -/
  | paused
  /-- `recording_finalise` run -/
  | finalised
deriving DecidableEq

/-- Whether an event is a fabric packet emission. -/
def Ev.isSent : Ev → Bool
  | Ev.sent _ => true
  | _ => false

/-- The body of the per-source loop of `timer_callback` for source index `s`
on tick `t`: run the source's generator, then, when any spikes were generated,
mark them in the recording buffer and, if a key is configured, send one packet
per spike with key `key | s` (bitwise or). -/
def sweep_source (p : parameters_t) (recording_flags : ℕ) (t s : ℕ)
    (src : spike_source_t) (pd : ℕ) (ev : ℚ) (sp : timed_out_spikes) :
    spike_source_t × timed_out_spikes × List Ev :=
  let sn := source_tick t src pd ev
  if 0 < sn.2 then
    (sn.1, mark_spike recording_flags sp s sn.2,
     if p.has_key then List.replicate sn.2 (Ev.sent (p.key ||| s)) else [])
  else (sn.1, sp, [])

/-- The per-source loop of `timer_callback`, sweeping sources in index order
starting at index `s`, threading the recording buffer and collecting events.
`pds` and `evs` supply one Poisson count and one exponential variate per
source. -/
def sweep (p : parameters_t) (recording_flags : ℕ) (t : ℕ) :
    ℕ → List spike_source_t → List ℕ → List ℚ → timed_out_spikes →
    List spike_source_t × timed_out_spikes × List Ev
  | _, [], _, _, sp => ([], sp, [])
  | s, src :: rest, pds, evs, sp =>
    let one := sweep_source p recording_flags t s src
      (pds.headD 0) (evs.headD 0) sp
    let more := sweep p recording_flags t (s + 1) rest pds.tail evs.tail one.2.1
    (one.1 :: more.1, more.2.1, one.2.2 ++ more.2.2)

/-- The mutable state the timer callback touches: the parameter block and the
source array in local memory, the tick counter `time`, the simulation length,
the recording flags, the recording buffer, and the shared-memory (SDRAM) image
of the parameter region — the parameter block and, following it, the
source-record array. -/
structure machine_state where
  params : parameters_t
  sources : List spike_source_t
  time : ℕ
  simulation_ticks : ℕ
  infinite_run : Bool
  recording_flags : ℕ
  spikes : timed_out_spikes
  sdram_params : parameters_t
  sdram_sources : List spike_source_t
deriving DecidableEq

/-- `store_poisson_parameters` from the C source: copy the in-memory source
array back to the shared-memory region at the offset just past the parameter
block; the parameter block itself is not written. -/
def store_poisson_parameters (st : machine_state) : machine_state :=
  { st with sdram_sources := st.sources }

/-- `timer_callback` from the C source.  `time` is incremented on entry; when
a finite run length has been reached the state is persisted, the core pauses
(finalising the recorder when recording is enabled) and `time` is decremented
again; otherwise the source sweep runs, followed, when recording is enabled,
by the recording flush and the timestep notification.  Returns the new state
and the events in program order. -/
def timer_callback (st : machine_state) (pds : List ℕ) (evs : List ℚ) :
    machine_state × List Ev :=
  let t := st.time + 1
  if st.infinite_run = false ∧ st.simulation_ticks ≤ t then
    (store_poisson_parameters { st with time := t - 1 },
     Ev.paused :: (if 0 < st.recording_flags then [Ev.finalised] else []))
  else
    let sw := sweep st.params st.recording_flags t 0 st.sources pds evs
      st.spikes
    let rec_part :
        timed_out_spikes × List Ev :=
      if 0 < st.recording_flags then
        let rp := record_spikes t sw.2.1
        (rp.1,
         (match rp.2 with
          | some (tt, nb, ls) => [Ev.recorded tt nb ls]
          | none => []) ++ [Ev.timestep t])
      else (sw.2.1, [])
    ({ st with sources := sw.1, spikes := rec_part.1, time := t },
     sw.2.2 ++ rec_part.2)

/-! Concrete fixtures used by the evaluation theorems and witnesses below.
`demo_params` matches end-to-end scenario 2 of the specification: a 1 ms tick
(1000 ticks per second) and a slow/fast cutoff of 0.25 spikes per tick. -/

/-- A concrete parameter block: 1 ms ticks, cutoff 0.25 per tick, one source,
first global id 0. -/
def demo_params : parameters_t :=
  { has_key := true, key := 32, set_rate_neuron_id_mask := 255,
    random_backoff_us := 0, time_between_spikes := 0,
    seconds_per_tick := 1 / 1000, ticks_per_second := 1000,
    slow_rate_per_tick_cutoff := 1 / 4, first_source_id := 0,
    n_spike_sources := 1 }

/-- A concrete fast source record, active on ticks 0 through 999. -/
def demo_source : spike_source_t :=
  { start_ticks := 0, end_ticks := 1000, is_fast_source := true,
    exp_minus_lambda := 1 / 2, mean_isi_ticks := 5, time_to_spike_ticks := 3 }

/-- A concrete slow source record with mean ISI one tick and a spike two ticks
overdue. -/
def demo_slow : spike_source_t :=
  { start_ticks := 0, end_ticks := 10, is_fast_source := false,
    exp_minus_lambda := 0, mean_isi_ticks := 1, time_to_spike_ticks := -2 }

/-- C1: the regime dichotomy fails on the code.  With a 1000 Hz update and
`rate_hz * seconds_per_tick = 1 > 1/4 = slow_fast_cutoff`, the claim requires
the source to become Fast with `exp_minus_lambda = exp (-1)`; but
`set_spike_source_rate` shadows the incoming rate with a local zero, so for
every `EXP` function the in-range update makes the source Slow with
`mean_isi_ticks = 0`. -/
theorem C1_regime_dichotomy_code_bug_eval :
    ∀ expF : ℚ → ℚ,
      (1000 : ℚ) * demo_params.seconds_per_tick >
        demo_params.slow_rate_per_tick_cutoff ∧
      set_spike_source_rate expF demo_params [demo_source] 0 1000 =
        [{ demo_source with is_fast_source := false, mean_isi_ticks := 0 }] := by
  intro expF
  constructor
  · norm_num [demo_params]
  · norm_num [set_spike_source_rate, demo_params, demo_source, modifyAt]

/-- C3: the slow-regime mean ISI fails on the code.  A 2 Hz update is a
slow-regime update (`2 * (1/1000) < 1/4`), and the claim requires the stored
`mean_isi_ticks` to be `1 / (2 * seconds_per_tick) = 500`; but the code stores
`rate * ticks_per_second` computed from the shadowed local rate 0, so the
stored value is 0. -/
theorem C3_mean_isi_code_bug_eval :
    ∀ expF : ℚ → ℚ,
      set_spike_source_rate expF demo_params [demo_source] 0 2 =
        [{ demo_source with is_fast_source := false, mean_isi_ticks := 0 }] ∧
      (0 : ℚ) ≠ 1 / ((2 : ℚ) * demo_params.seconds_per_tick) := by
  intro expF
  constructor
  · norm_num [set_spike_source_rate, demo_params, demo_source, modifyAt]
  · norm_num [demo_params]

/-- C8: a rate update whose target id lies outside
`[first_source_id, first_source_id + n_spike_sources)` leaves the source array
unchanged and signals nothing. -/
theorem C8_out_of_range_set_rate_noop (expF : ℚ → ℚ) (p : parameters_t)
    (arr : List spike_source_t) (id : ℕ) (rate : ℚ)
    (h : id < p.first_source_id ∨
         p.first_source_id + p.n_spike_sources ≤ id) :
    set_spike_source_rate expF p arr id rate = arr := by
  unfold set_spike_source_rate
  rw [if_neg]
  omega

/-- Witness for C8 at a concrete out-of-range id. -/
theorem C8_out_of_range_set_rate_noop_witness :
    set_spike_source_rate (fun x => x) demo_params [demo_source] 5 7 =
      [demo_source] :=
  C8_out_of_range_set_rate_noop (fun x => x) demo_params [demo_source] 5 7
    (Or.inr (by decide))

/-- Applying `modifyAt` twice at the same index with an idempotent function is
the same as applying it once. -/
theorem modifyAt_modifyAt_of_idem (f : α → α) (hf : ∀ x, f (f x) = f x) :
    ∀ (i : ℕ) (l : List α), modifyAt f i (modifyAt f i l) = modifyAt f i l := by
  intro i l
  induction l generalizing i with
  | nil => cases i <;> rfl
  | cons x xs ih =>
    cases i with
    | zero => simp [modifyAt, hf]
    | succ n => simp [modifyAt, ih]

/-- C9: `set_spike_source_rate` is idempotent — applying the same update twice
in succession yields exactly the source table produced by applying it once
(the function mutates nothing but the source table). -/
theorem C9_set_rate_idempotent (expF : ℚ → ℚ) (p : parameters_t)
    (arr : List spike_source_t) (id : ℕ) (rate : ℚ) :
    set_spike_source_rate expF p (set_spike_source_rate expF p arr id rate)
        id rate =
      set_spike_source_rate expF p arr id rate := by
  simp only [set_spike_source_rate]
  split_ifs
  · apply modifyAt_modifyAt_of_idem
    intro x
    rfl
  · apply modifyAt_modifyAt_of_idem
    intro x
    rfl
  · rfl

/-- C2 counterexample: the claim demands the while-loop semantics of the
specification (one spike per crossing for as long as the counter stays
nonpositive), but the code's slow branch is a single `if`.  For a slow source
entering a tick with `time_to_spike_ticks = -2`, mean ISI 1, and every
exponential draw equal to 1, the specified loop generates 3 spikes in the tick
while the code generates exactly 1. -/
theorem C2_slow_while_counterexample :
    (slow_source_tick 0 demo_slow 1).2 = 1 ∧
    (slow_source_tick_spec 0 demo_slow [1, 1, 1, 1]).2 = 3 ∧
    (1 : ℕ) ≠ 3 := by
  refine ⟨?_, ?_, by decide⟩
  · norm_num [slow_source_tick, demo_slow,
      slow_spike_source_get_time_to_spike]
  · norm_num [slow_source_tick_spec, slow_crossing_loop, demo_slow,
      slow_spike_source_get_time_to_spike]

/-- C2 (amended): on an active tick, a slow source with nonzero mean ISI
handles at most one crossing — it generates exactly one spike if and only if
`time_to_spike_ticks ≤ 0` on entry, in which case one fresh ISI draw is added;
afterwards `time_to_spike_ticks` is decremented by 1 exactly once. -/
theorem C2_slow_single_crossing (t : ℕ) (src : spike_source_t) (ev : ℚ)
    (hs : src.start_ticks ≤ t) (he : t < src.end_ticks)
    (hm : src.mean_isi_ticks ≠ 0) :
    slow_source_tick t src ev =
      ({ src with time_to_spike_ticks :=
          (if src.time_to_spike_ticks ≤ 0
           then src.time_to_spike_ticks + ev * src.mean_isi_ticks
           else src.time_to_spike_ticks) - 1 },
       if src.time_to_spike_ticks ≤ 0 then 1 else 0) := by
  unfold slow_source_tick
  rw [if_pos ⟨hs, he, hm⟩]
  by_cases h : src.time_to_spike_ticks ≤ 0
  · simp [h, slow_spike_source_get_time_to_spike]
  · simp [h]

/-- Witness for C2's amended theorem at a concrete overdue slow source. -/
theorem C2_slow_single_crossing_witness :
    slow_source_tick 0 demo_slow 1 =
      ({ demo_slow with time_to_spike_ticks := -2 }, 1) := by
  rw [C2_slow_single_crossing 0 demo_slow 1 (by decide) (by decide)
    (by norm_num [demo_slow])]
  norm_num [demo_slow]

/-- C5: a source generates no spikes and leaves everything untouched on any
tick outside its `[start_ticks, end_ticks)` window, whatever its regime; and a
slow source with `mean_isi_ticks = 0` generates nothing on any tick and its
`time_to_spike_ticks` is not decremented.  In both cases the per-source loop
body neither marks the recording buffer nor emits any packet. -/
theorem C5_silent_window_and_silent_slow (p : parameters_t)
    (flags t s : ℕ) (src : spike_source_t) (pd : ℕ) (ev : ℚ)
    (sp : timed_out_spikes)
    (h : ¬(src.start_ticks ≤ t ∧ t < src.end_ticks) ∨
         (src.is_fast_source = false ∧ src.mean_isi_ticks = 0)) :
    source_tick t src pd ev = (src, 0) ∧
    sweep_source p flags t s src pd ev sp = (src, sp, []) := by
  have h1 : source_tick t src pd ev = (src, 0) := by
    unfold source_tick slow_source_tick
    rcases Bool.eq_false_or_eq_true src.is_fast_source with hb | hb
    · rw [hb, if_pos rfl]
      rcases h with h | ⟨hslow, _⟩
      · rw [if_neg h]
      · simp [hb] at hslow
    · rw [hb]
      simp only [Bool.false_eq_true, if_false]
      rcases h with h | ⟨_, hmean⟩
      · rw [if_neg (fun hc => h ⟨hc.1, hc.2.1⟩)]
      · rw [if_neg (fun hc => hc.2.2 hmean)]
  refine ⟨h1, ?_⟩
  unfold sweep_source
  rw [h1]
  rfl

/-- Witness for C5: a fast source consulted before its start tick, and a
silent slow source, both yield nothing concretely. -/
theorem C5_silent_window_and_silent_slow_witness :
    source_tick 2000 demo_source 7 1 = (demo_source, 0) ∧
    sweep_source demo_params 1 2000 0 demo_source 7 1
        { time := 0, n_buffers := 0, layers := [] } =
      (demo_source, { time := 0, n_buffers := 0, layers := [] }, []) :=
  C5_silent_window_and_silent_slow demo_params 1 2000 0 demo_source 7 1
    { time := 0, n_buffers := 0, layers := [] }
    (Or.inl (by norm_num [demo_source]))

/-- Marking a whole tick's spikes: fold `_mark_spike` over a list of
(source, count) pairs, in source order, as the per-source loop of
`timer_callback` does. -/
def mark_sweep (flags : ℕ) (sp : timed_out_spikes) :
    List (ℕ × ℕ) → timed_out_spikes
  | [] => sp
  | sc :: rest => mark_sweep flags (mark_spike flags sp sc.1 sc.2) rest

/-- `set_bit_layers` preserves the number of layers. -/
theorem set_bit_layers_length (i : ℕ) :
    ∀ (ls : List (Finset ℕ)) (n : ℕ),
      (set_bit_layers i ls n).length = ls.length := by
  intro ls
  induction ls with
  | nil => intro n; cases n <;> rfl
  | cons l ls ih =>
    intro n
    cases n with
    | zero => rfl
    | succ n => simp [set_bit_layers, ih]

/-- Bit membership after `set_bit_layers`: bit `i` appears in layer `k`
exactly when the layer was bit-set (`k < n`, in range) or already held it. -/
theorem mem_getD_set_bit_layers (i j : ℕ) :
    ∀ (ls : List (Finset ℕ)) (n k : ℕ),
      (j ∈ (set_bit_layers i ls n).getD k ∅ ↔
        (j = i ∧ k < n ∧ k < ls.length) ∨ j ∈ ls.getD k ∅) := by
  intro ls
  induction ls with
  | nil =>
    intro n k
    cases n <;> simp [set_bit_layers]
  | cons l ls ih =>
    intro n k
    cases n with
    | zero => simp [set_bit_layers]
    | succ n =>
      cases k with
      | zero => simp [set_bit_layers]
      | succ k =>
        simp only [set_bit_layers, List.getD_cons_succ, ih, List.length_cons]
        constructor <;> rintro (⟨h1, h2, h3⟩ | h)
        · exact Or.inl ⟨h1, by omega, by omega⟩
        · exact Or.inr h
        · exact Or.inl ⟨h1, by omega, by omega⟩
        · exact Or.inr h

/-- Padding the layer list with fresh all-zero layers changes no `getD`
observation (out-of-range reads already return the empty bit field). -/
theorem getD_append_replicate_empty :
    ∀ (ls : List (Finset ℕ)) (r k : ℕ),
      (ls ++ List.replicate r (∅ : Finset ℕ)).getD k ∅ = ls.getD k ∅ := by
  intro ls
  induction ls with
  | nil =>
    intro r k
    simp only [List.nil_append, List.getD_nil]
    induction r generalizing k with
    | zero => rfl
    | succ r ihr =>
      cases k with
      | zero => rfl
      | succ k => simpa [List.replicate_succ] using ihr k
  | cons l ls ih =>
    intro r k
    cases k with
    | zero => rfl
    | succ k => simpa using ih r k

/-- `_mark_spike` never touches the `time` stamp. -/
theorem mark_spike_time (flags : ℕ) (sp : timed_out_spikes) (i c : ℕ) :
    (mark_spike flags sp i c).time = sp.time := by
  simp only [mark_spike]
  split_ifs <;> rfl

/-- With recording enabled, `_mark_spike` raises `n_buffers` to the maximum of
its old value and the spike count. -/
theorem mark_spike_n_buffers (flags : ℕ) (sp : timed_out_spikes) (i c : ℕ)
    (hf : 0 < flags) :
    (mark_spike flags sp i c).n_buffers = max sp.n_buffers c := by
  simp only [mark_spike, hf, if_true]
  split_ifs <;> simp_all <;> omega

/-- With recording enabled, `_mark_spike` grows the allocation to exactly the
spike count when that exceeds it, and otherwise leaves it alone. -/
theorem mark_spike_length (flags : ℕ) (sp : timed_out_spikes) (i c : ℕ)
    (hf : 0 < flags) :
    (mark_spike flags sp i c).layers.length = max sp.layers.length c := by
  simp only [mark_spike, hf, if_true]
  split_ifs <;>
    simp [set_bit_layers_length, List.length_append, List.length_replicate] <;>
    omega

/-- Bit membership after `_mark_spike` with recording enabled: bit `j` of
layer `k` is set exactly when this call set it (`j = i` and `k < c`) or it was
already set. -/
theorem mem_getD_mark_spike (flags : ℕ) (sp : timed_out_spikes) (i c j k : ℕ)
    (hf : 0 < flags) :
    (j ∈ (mark_spike flags sp i c).layers.getD k ∅ ↔
      (j = i ∧ k < c) ∨ j ∈ sp.layers.getD k ∅) := by
  simp only [mark_spike, hf, if_true]
  split_ifs with hgrow hnb
  · simp only [mem_getD_set_bit_layers, getD_append_replicate_empty,
      List.length_append, List.length_replicate]
    constructor
    · rintro (⟨h1, h2, _⟩ | h) <;> tauto
    · rintro (⟨h1, h2⟩ | h)
      · exact Or.inl ⟨h1, h2, by omega⟩
      · exact Or.inr h
  · simp only [mem_getD_set_bit_layers, getD_append_replicate_empty,
      List.length_append, List.length_replicate]
    constructor
    · rintro (⟨h1, h2, _⟩ | h) <;> tauto
    · rintro (⟨h1, h2⟩ | h)
      · exact Or.inl ⟨h1, h2, by omega⟩
      · exact Or.inr h
  · simp only [mem_getD_set_bit_layers]
    constructor
    · rintro (⟨h1, h2, _⟩ | h) <;> tauto
    · rintro (⟨h1, h2⟩ | h)
      · exact Or.inl ⟨h1, h2, by omega⟩
      · exact Or.inr h
  · simp only [mem_getD_set_bit_layers]
    constructor
    · rintro (⟨h1, h2, _⟩ | h) <;> tauto
    · rintro (⟨h1, h2⟩ | h)
      · exact Or.inl ⟨h1, h2, by omega⟩
      · exact Or.inr h

/-- Bit membership after a whole sweep of marks with recording enabled: bit
`j` of layer `k` is set exactly when some pair of the sweep set it or it was
set before the sweep. -/
theorem mem_getD_mark_sweep (flags : ℕ) (hf : 0 < flags) :
    ∀ (l : List (ℕ × ℕ)) (sp : timed_out_spikes) (j k : ℕ),
      (j ∈ (mark_sweep flags sp l).layers.getD k ∅ ↔
        (∃ c, (j, c) ∈ l ∧ k < c) ∨ j ∈ sp.layers.getD k ∅) := by
  intro l
  induction l with
  | nil => simp [mark_sweep]
  | cons sc rest ih =>
    intro sp j k
    simp only [mark_sweep, ih, mem_getD_mark_spike flags sp sc.1 sc.2 j k hf,
      List.mem_cons]
    constructor
    · rintro (⟨c, hc, hk⟩ | (⟨h1, h2⟩ | h))
      · exact Or.inl ⟨c, Or.inr hc, hk⟩
      · exact Or.inl ⟨sc.2, Or.inl (by rw [h1]), h2⟩
      · exact Or.inr h
    · rintro (⟨c, hc | hc, hk⟩ | h)
      · have h1 : j = sc.1 := by rw [← hc]
        have h2 : c = sc.2 := by rw [← hc]
        exact Or.inr (Or.inl ⟨h1, h2 ▸ hk⟩)
      · exact Or.inl ⟨c, hc, hk⟩
      · exact Or.inr (Or.inr h)

/-- C6: with recording enabled, `_mark_spike(source, count)` with a positive
count keeps the time stamp, grows the allocation to exactly `count` zero-filled
layers when `count` exceeds it (copying the old contents — bits of other
sources and bits of this source in layers at or above `count` are exactly as
before), raises `n_buffers` to `max(n_buffers, count)`, and sets bit `source`
in each of layers `0` through `count - 1`; consequently, after a tick's sweep
of marks starting from a reset buffer, bit `s` of layer `k` is set if and only
if some pair `(s, cs)` with `k < cs` was marked, i.e. source `s` emitted at
least `k + 1` spikes that tick. -/
theorem C6_mark_spike_grow_and_set (flags : ℕ) (sp : timed_out_spikes)
    (i c : ℕ) (hf : 0 < flags) (hc : 0 < c) :
    (mark_spike flags sp i c).time = sp.time ∧
    (mark_spike flags sp i c).n_buffers = max sp.n_buffers c ∧
    (mark_spike flags sp i c).layers.length = max sp.layers.length c ∧
    (∀ k, k < c → i ∈ (mark_spike flags sp i c).layers.getD k ∅) ∧
    (∀ k j, j ≠ i →
      (j ∈ (mark_spike flags sp i c).layers.getD k ∅ ↔
        j ∈ sp.layers.getD k ∅)) ∧
    (∀ k, c ≤ k →
      (i ∈ (mark_spike flags sp i c).layers.getD k ∅ ↔
        i ∈ sp.layers.getD k ∅)) ∧
    (∀ (l : List (ℕ × ℕ)) (m τ s k : ℕ),
      (s ∈ (mark_sweep flags
          { time := τ, n_buffers := 0, layers := List.replicate m ∅ }
          l).layers.getD k ∅ ↔
        ∃ cs, (s, cs) ∈ l ∧ k < cs)) := by
  refine ⟨mark_spike_time flags sp i c,
    mark_spike_n_buffers flags sp i c hf,
    mark_spike_length flags sp i c hf, ?_, ?_, ?_, ?_⟩
  · intro k hk
    exact (mem_getD_mark_spike flags sp i c i k hf).2 (Or.inl ⟨rfl, hk⟩)
  · intro k j hji
    rw [mem_getD_mark_spike flags sp i c j k hf]
    constructor
    · rintro (⟨h1, _⟩ | h)
      · exact absurd h1 hji
      · exact h
    · exact Or.inr
  · intro k hk
    rw [mem_getD_mark_spike flags sp i c i k hf]
    constructor
    · rintro (⟨_, h2⟩ | h)
      · omega
      · exact h
    · exact Or.inr
  · intro l m τ s k
    rw [mem_getD_mark_sweep flags hf l _ s k]
    have hrep : ∀ r, ((List.replicate r (∅ : Finset ℕ)).getD k ∅) = ∅ := by
      intro r
      rcases Nat.lt_or_ge k r with h | h
      · rw [List.getD_eq_getElem _ _ (by simpa using h)]
        simp
      · exact List.getD_eq_default _ _ (by simpa using h)
    simp [hrep]

/-- Witness for C6 at a concrete empty buffer: marking two spikes of source 3
allocates two layers, raises the layer count to 2, and sets bit 3 in both
layers; a sweep marking sources 3 (twice) and 0 (once) sets bit 0 in layer 0
but not in layer 1. -/
theorem C6_mark_spike_grow_and_set_witness :
    (mark_spike 1 { time := 0, n_buffers := 0, layers := [] } 3 2).n_buffers =
        max 0 2 ∧
    (mark_spike 1 { time := 0, n_buffers := 0, layers := [] } 3
        2).layers.length = max 0 2 ∧
    3 ∈ (mark_spike 1 { time := 0, n_buffers := 0, layers := [] } 3
        2).layers.getD 1 ∅ ∧
    (0 ∈ (mark_sweep 1 { time := 0, n_buffers := 0, layers := List.replicate 0 ∅ }
        [(3, 2), (0, 1)]).layers.getD 0 ∅ ↔ ∃ cs, ((0, cs) ∈ [(3, 2), (0, 1)] ∧ 0 < cs)) := by
  have h := C6_mark_spike_grow_and_set 1
    { time := 0, n_buffers := 0, layers := [] } 3 2 (by decide) (by decide)
  exact ⟨h.2.1, h.2.2.1, h.2.2.2.1 1 (by decide),
    h.2.2.2.2.2.2 [(3, 2), (0, 1)] 0 0 0 0⟩

/-- C7: when flushed with at least one populated layer, `_record_spikes`
submits exactly the header together with the first `n_buffers` layers
(`8 + n_buffers * spike_buffer_size` bytes — layers at or beyond `n_buffers`
are not part of the payload), and afterwards the buffer satisfies the reset
invariant: `n_buffers = 0` and every allocated layer is all-zero.  Moreover,
because every layer at or beyond `n_buffers` was already all-zero, zeroing the
first `n_buffers` layers is already enough to put the whole buffer in that
state. -/
theorem C7_flush_payload_and_reset (t : ℕ) (sp : timed_out_spikes)
    (hwf : ∀ k, sp.n_buffers ≤ k → sp.layers.getD k ∅ = ∅)
    (hn : 0 < sp.n_buffers) (hl : sp.n_buffers ≤ sp.layers.length) :
    record_spikes t sp =
      ({ time := t, n_buffers := 0,
         layers := List.replicate sp.layers.length ∅ },
       some (t, sp.n_buffers, sp.layers.take sp.n_buffers)) ∧
    List.replicate sp.n_buffers ∅ ++ sp.layers.drop sp.n_buffers =
      List.replicate sp.layers.length ∅ := by
  have hdrop : sp.layers.drop sp.n_buffers =
      List.replicate (sp.layers.length - sp.n_buffers) (∅ : Finset ℕ) := by
    apply List.ext_getElem
    · simp
    · intro k h1 h2
      have hk : sp.n_buffers + k < sp.layers.length := by
        simp at h1
        omega
      have := hwf (sp.n_buffers + k) (Nat.le_add_right _ _)
      rw [List.getD_eq_getElem _ _ hk] at this
      simp [List.getElem_drop, this]
  constructor
  · unfold record_spikes reset_spikes
    rw [if_pos ⟨Nat.lt_of_lt_of_le hn hl, hn⟩]
  · rw [hdrop, ← List.replicate_add]
    congr 1
    omega

/-- Witness for C7 at a concrete two-layer buffer with one populated layer. -/
theorem C7_flush_payload_and_reset_witness :
    record_spikes 9 { time := 0, n_buffers := 1, layers := [{2}, ∅] } =
      ({ time := 9, n_buffers := 0, layers := List.replicate 2 ∅ },
       some (9, 1, [({2} : Finset ℕ)])) := by
  have h := C7_flush_payload_and_reset 9
    { time := 0, n_buffers := 1, layers := [{2}, ∅] }
    (by
      intro k hk
      match k, hk with
      | 1, _ => rfl
      | (n + 2), _ => exact List.getD_eq_default _ _ (by simp))
    (by decide) (by decide)
  simpa using h.1

/-- C4: on a tick that reaches a configured finite run length, the timer
handler persists the in-memory source table to the shared-memory parameter
region without touching the parameter block itself, enters the pause state,
finalises the recorder exactly when recording is configured, and nets the tick
counter back to its pre-tick value (the internal `time++` is undone by
`time -= 1`, so the same tick index replays on resume); no spike is generated
or marked and every source record, and the recording buffer, is left exactly
as it was. -/
theorem C4_pause_persists_and_replays (st : machine_state) (pds : List ℕ)
    (evs : List ℚ) (hinf : st.infinite_run = false)
    (hend : st.simulation_ticks ≤ st.time + 1) :
    timer_callback st pds evs =
      ({ st with sdram_sources := st.sources },
       Ev.paused ::
        (if 0 < st.recording_flags then [Ev.finalised] else [])) := by
  unfold timer_callback store_poisson_parameters
  rw [if_pos ⟨hinf, hend⟩]
  simp

/-- A concrete machine state one tick away from its configured end. -/
def demo_state : machine_state :=
  { params := demo_params, sources := [demo_slow], time := 4,
    simulation_ticks := 5, infinite_run := false, recording_flags := 1,
    spikes := { time := 0, n_buffers := 0, layers := [] },
    sdram_params := demo_params, sdram_sources := [demo_source] }

/-- Witness for C4 at `demo_state`. -/
theorem C4_pause_persists_and_replays_witness :
    timer_callback demo_state [] [] =
      ({ demo_state with sdram_sources := [demo_slow] },
       [Ev.paused, Ev.finalised]) := by
  rw [C4_pause_persists_and_replays demo_state [] [] rfl (by decide)]
  norm_num [demo_state]

/-- `_mark_spike` with recording disabled is the identity on the buffer. -/
theorem mark_spike_zero (sp : timed_out_spikes) (i c : ℕ) :
    mark_spike 0 sp i c = sp := by
  simp [mark_spike]

/-- The per-source loop body with recording disabled leaves the buffer
untouched. -/
theorem sweep_source_spikes_zero (p : parameters_t) (t s : ℕ)
    (src : spike_source_t) (pd : ℕ) (ev : ℚ) (sp : timed_out_spikes) :
    (sweep_source p 0 t s src pd ev sp).2.1 = sp := by
  simp only [sweep_source]
  split_ifs <;> simp [mark_spike_zero]

/-- The whole sweep with recording disabled leaves the buffer untouched. -/
theorem sweep_spikes_zero (p : parameters_t) (t : ℕ) :
    ∀ (srcs : List spike_source_t) (s : ℕ) (pds : List ℕ) (evs : List ℚ)
      (sp : timed_out_spikes),
      (sweep p 0 t s srcs pds evs sp).2.1 = sp := by
  intro srcs
  induction srcs with
  | nil => intro s pds evs sp; rfl
  | cons src rest ih =>
    intro s pds evs sp
    simp only [sweep, ih, sweep_source_spikes_zero]

/-- The per-source loop body's source update and emitted packets depend
neither on the recording flags nor on the recording buffer. -/
theorem sweep_source_indep (p : parameters_t) (t s : ℕ)
    (src : spike_source_t) (pd : ℕ) (ev : ℚ) (f f' : ℕ)
    (sp sp' : timed_out_spikes) :
    (sweep_source p f t s src pd ev sp).1 =
      (sweep_source p f' t s src pd ev sp').1 ∧
    (sweep_source p f t s src pd ev sp).2.2 =
      (sweep_source p f' t s src pd ev sp').2.2 := by
  simp only [sweep_source]
  split_ifs <;> exact ⟨rfl, rfl⟩

/-- The sweep's source updates and emitted packets depend neither on the
recording flags nor on the recording buffer. -/
theorem sweep_indep (p : parameters_t) (t : ℕ) :
    ∀ (srcs : List spike_source_t) (s : ℕ) (pds : List ℕ) (evs : List ℚ)
      (f f' : ℕ) (sp sp' : timed_out_spikes),
      (sweep p f t s srcs pds evs sp).1 =
        (sweep p f' t s srcs pds evs sp').1 ∧
      (sweep p f t s srcs pds evs sp).2.2 =
        (sweep p f' t s srcs pds evs sp').2.2 := by
  intro srcs
  induction srcs with
  | nil => intro s pds evs f f' sp sp'; exact ⟨rfl, rfl⟩
  | cons src rest ih =>
    intro s pds evs f f' sp sp'
    have hsrc := sweep_source_indep p t s src (pds.headD 0) (evs.headD 0)
      f f' sp sp'
    have hrest := ih (s + 1) pds.tail evs.tail f f'
      (sweep_source p f t s src (pds.headD 0) (evs.headD 0) sp).2.1
      (sweep_source p f' t s src (pds.headD 0) (evs.headD 0) sp').2.1
    simp only [sweep]
    exact ⟨by rw [hsrc.1, hrest.1], by rw [hsrc.2, hrest.2]⟩

/-- Every event the sweep itself produces is a fabric packet emission. -/
theorem sweep_events_sent (p : parameters_t) (t f : ℕ) :
    ∀ (srcs : List spike_source_t) (s : ℕ) (pds : List ℕ) (evs : List ℚ)
      (sp : timed_out_spikes),
      ∀ e ∈ (sweep p f t s srcs pds evs sp).2.2, e.isSent = true := by
  intro srcs
  induction srcs with
  | nil => intro s pds evs sp e he; simp [sweep] at he
  | cons src rest ih =>
    intro s pds evs sp e he
    simp only [sweep, List.mem_append] at he
    rcases he with he | he
    · simp only [sweep_source] at he
      split_ifs at he <;> simp_all [List.mem_replicate, Ev.isSent]
    · exact ih _ _ _ _ e he

/-- C10: with recording disabled, `_mark_spike` is a complete no-op on the
buffer (no growth, no bit set, no header change); a timer tick with
`recording_flags = 0` leaves the recording buffer untouched and produces no
flush (`recording_record_and_notify`) and no timestep notification — every
event it produces is a fabric packet, except the pause notification on the
final tick; and the source updates and the emitted packets of the per-source
sweep are identical whatever the recording flags and whatever the buffer
contents. -/
theorem C10_recording_disabled_frame :
    (∀ (sp : timed_out_spikes) (i c : ℕ), mark_spike 0 sp i c = sp) ∧
    (∀ (st : machine_state) (pds : List ℕ) (evs : List ℚ),
      st.recording_flags = 0 →
        (timer_callback st pds evs).1.spikes = st.spikes ∧
        ∀ e ∈ (timer_callback st pds evs).2,
          e.isSent = true ∨ e = Ev.paused) ∧
    (∀ (p : parameters_t) (t s : ℕ) (srcs : List spike_source_t)
        (pds : List ℕ) (evs : List ℚ) (f f' : ℕ)
        (sp sp' : timed_out_spikes),
      (sweep p f t s srcs pds evs sp).1 =
        (sweep p f' t s srcs pds evs sp').1 ∧
      (sweep p f t s srcs pds evs sp).2.2 =
        (sweep p f' t s srcs pds evs sp').2.2) := by
  refine ⟨mark_spike_zero, ?_, fun p t s srcs pds evs f f' sp sp' =>
    sweep_indep p t srcs s pds evs f f' sp sp'⟩
  intro st pds evs hflags
  unfold timer_callback store_poisson_parameters
  by_cases hp : st.infinite_run = false ∧ st.simulation_ticks ≤ st.time + 1
  · rw [if_pos hp]
    refine ⟨rfl, ?_⟩
    intro e he
    simp [hflags] at he
    simp [he]
  · rw [if_neg hp]
    rw [hflags]
    refine ⟨by simp [sweep_spikes_zero], ?_⟩
    intro e he
    simp only [Nat.lt_irrefl, if_false, List.append_nil] at he
    exact Or.inl (sweep_events_sent st.params (st.time + 1) 0 st.sources 0
      pds evs st.spikes e he)

/-- A concrete machine state with recording disabled, far from its end tick. -/
def demo_norec : machine_state :=
  { demo_state with recording_flags := 0, simulation_ticks := 100 }

/-- Witness for C10: on a concrete tick with recording disabled the recording
buffer is untouched. -/
theorem C10_recording_disabled_frame_witness :
    (timer_callback demo_norec [1] [1]).1.spikes = demo_norec.spikes :=
  (C10_recording_disabled_frame.2.1 demo_norec [1] [1] rfl).1

end SSP
